import Mathlib

/-!
Verification development for the js-sqlite-workers pipeline.

The repository is a producer-consumer pipeline: a producer worker pages rows
out of PostgreSQL into a SQLite `work_queue` table, and N consumer workers
atomically claim rows, fan each row out into three HTTP calls, and write the
results back.  This file gives a shallow embedding of the queue operations
(the SQL statements prepared in `src/consumer.js` and `src/index.js`), the
consumer poll-loop state machine, the orchestrator's shutdown accounting,
the producer's paging loop, and the delay formatting, and proves or refutes
the specification's claims about them.
-/

/-- The `status` column of `work_queue` (schema in `src/db.js`). -/
inductive Status where
  | pending
  | processing
  | done
  | failed
deriving DecidableEq

/-- One HTTP call's captured result: body text, status code, elapsed ms
(`src/consumer.js`, the fetch loop). -/
structure HttpResult where
  body : String
  status : Int
  duration_ms : ℚ
deriving DecidableEq

/-- The three results of one row's HTTP fan-out. -/
structure Fanout where
  r1 : HttpResult
  r2 : HttpResult
  r3 : HttpResult
deriving DecidableEq

/-- A `work_queue` row, mirroring the schema created by `initSchema` in
`src/db.js`.  Nullable columns are `Option`. -/
structure Row where
  id : Nat
  source_id : Int
  payload : String
  status : Status
  created_at : Nat
  processed_at : Option Nat
  result_1_body : Option String
  result_1_status : Option Int
  result_1_duration_ms : Option ℚ
  result_2_body : Option String
  result_2_status : Option Int
  result_2_duration_ms : Option ℚ
  result_3_body : Option String
  result_3_status : Option Int
  result_3_duration_ms : Option ℚ
deriving DecidableEq

/-- The queue database: the list of rows plus the AUTOINCREMENT counter
for the `id` primary key. -/
structure QState where
  rows : List Row
  nextId : Nat
deriving DecidableEq

/-- A freshly inserted row: `INSERT INTO work_queue (source_id, payload)`
(`src/producer.js`), so `status` defaults to `pending` and every nullable
column is NULL. -/
def newRow (rid : Nat) (now : Nat) (src : Int) (payload : String) : Row :=
  { id := rid, source_id := src, payload := payload, status := Status.pending,
    created_at := now, processed_at := none,
    result_1_body := none, result_1_status := none, result_1_duration_ms := none,
    result_2_body := none, result_2_status := none, result_2_duration_ms := none,
    result_3_body := none, result_3_status := none, result_3_duration_ms := none }

/-- `enqueue_batch`: the producer's `insertBatch` transaction inserts each
record of the page in order, each getting the next AUTOINCREMENT id. -/
def enqueue_batch (now : Nat) (batch : List (Int × String)) (s : QState) : QState :=
  match batch with
  | [] => s
  | (src, pl) :: rest =>
      enqueue_batch now rest
        { rows := s.rows ++ [newRow s.nextId now src pl], nextId := s.nextId + 1 }

/-- The claiming UPDATE applied to the selected row: `SET status =
'processing', processed_at = datetime('now')`. -/
def claimRow (now : Nat) (r : Row) : Row :=
  { r with status := Status.processing, processed_at := some now }

/-- `claim_one`: the `dequeue` statement of `src/consumer.js` —
`UPDATE work_queue SET status = 'processing', processed_at = datetime('now')
WHERE id = (SELECT id FROM work_queue WHERE status = 'pending' LIMIT 1)
RETURNING *`, run inside a `BEGIN IMMEDIATE` transaction (modelled here as
one atomic step).  Returns the updated row, or `none` when no row is
pending. -/
def claim_one (now : Nat) (s : QState) : Option Row × QState :=
  match s.rows.find? (fun r => r.status == Status.pending) with
  | none => (none, s)
  | some r =>
      (some (claimRow now r),
       { s with rows := s.rows.map (fun q => if q.id = r.id then claimRow now q else q) })

/-- The nine result assignments of the `markDone` UPDATE. -/
def applyDone (res : Fanout) (r : Row) : Row :=
  { r with
    status := Status.done,
    result_1_body := some res.r1.body, result_1_status := some res.r1.status,
    result_1_duration_ms := some res.r1.duration_ms,
    result_2_body := some res.r2.body, result_2_status := some res.r2.status,
    result_2_duration_ms := some res.r2.duration_ms,
    result_3_body := some res.r3.body, result_3_status := some res.r3.status,
    result_3_duration_ms := some res.r3.duration_ms }

/-- `mark_done`: the `markDone` statement — `UPDATE work_queue SET status =
'done', result_1_body = ?, ... WHERE id = ?`.  The WHERE clause matches on
`id` only (no status guard), and `better-sqlite3`'s `.run` never raises for
a zero-change UPDATE; it reports the change count, returned here alongside
the new database. -/
def mark_done (id : Nat) (res : Fanout) (s : QState) : Nat × QState :=
  ((s.rows.filter (fun r => r.id == id)).length,
   { s with rows := s.rows.map (fun r => if r.id = id then applyDone res r else r) })

/-- `mark_failed`: `UPDATE work_queue SET status = 'failed' WHERE id = ?`. -/
def mark_failed (id : Nat) (s : QState) : Nat × QState :=
  ((s.rows.filter (fun r => r.id == id)).length,
   { s with rows := s.rows.map (fun r => if r.id = id then { r with status := Status.failed } else r) })

/-- `reset_orphans`: the shutdown cleanup in `src/index.js` —
`UPDATE work_queue SET status = 'pending', processed_at = NULL
WHERE status = 'processing'`, returning the change count. -/
def reset_orphans (s : QState) : Nat × QState :=
  ((s.rows.filter (fun r => r.status == Status.processing)).length,
   { s with rows := s.rows.map (fun r =>
       if r.status = Status.processing
       then { r with status := Status.pending, processed_at := none }
       else r) })

/-- `true` when all nine `result_k_*` columns of a row are non-null. -/
def results_complete (r : Row) : Bool :=
  r.result_1_body.isSome && r.result_1_status.isSome && r.result_1_duration_ms.isSome &&
  r.result_2_body.isSome && r.result_2_status.isSome && r.result_2_duration_ms.isSome &&
  r.result_3_body.isSome && r.result_3_status.isSome && r.result_3_duration_ms.isSome

/-- One queue-API operation, as issued by the producer (enqueue), the
consumers (claim, markDone, markFailed) and the orchestrator's shutdown
(resetOrphans).  SQLite serializes the write transactions, so a concurrent
run is a sequence of these atomic operations. -/
inductive Op where
  | enqueue (now : Nat) (batch : List (Int × String))
  | claim (now : Nat)
  | markDone (id : Nat) (res : Fanout)
  | markFailed (id : Nat)
  | resetOrphans
deriving DecidableEq

/-- `true` exactly on `claim` operations. -/
def Op.isClaim : Op → Bool
  | .claim _ => true
  | _ => false

/-- Queue state together with the ids carried by the successful
`claim_one` returns so far, in order. -/
structure RunState where
  q : QState
  claimed : List Nat
deriving DecidableEq

/-- Apply one operation to the run state, recording the id of a successful
claim (the code reads `row.id` from the RETURNING row). -/
def stepOp (s : RunState) (op : Op) : RunState :=
  match op with
  | .enqueue now batch => { s with q := enqueue_batch now batch s.q }
  | .claim now =>
      match claim_one now s.q with
      | (none, q2) => { s with q := q2 }
      | (some r, q2) => { q := q2, claimed := s.claimed ++ [r.id] }
  | .markDone id res => { s with q := (mark_done id res s.q).2 }
  | .markFailed id => { s with q := (mark_failed id s.q).2 }
  | .resetOrphans => { s with q := (reset_orphans s.q).2 }

/-- The queue starts empty; SQLite AUTOINCREMENT assigns ids from 1. -/
def initRun : RunState := { q := { rows := [], nextId := 1 }, claimed := [] }

/-- Run a sequence of operations from the fresh database. -/
def runOps (ops : List Op) : RunState := ops.foldl stepOp initRun

/-! ## Consumer poll-loop state machine (`src/consumer.js`) -/

/-- The consumer's worker-local mutable state: the `producerDone` flag set
by the message handler and the `emptyPolls` counter.  These are the only
flags declared in `src/consumer.js`. -/
structure CState where
  producerDone : Bool
  emptyPolls : Nat
deriving DecidableEq

/-- Messages the orchestrator posts to a consumer worker. -/
inductive WMsg where
  | producer_done
  | drain
deriving DecidableEq

/-- The consumer's `parentPort.on('message')` handler: it matches only
`msg.type === 'producer_done'`; every other message (including `drain`)
falls through the single `if` and leaves the state untouched. -/
def onMessage (c : CState) (m : WMsg) : CState :=
  match m with
  | .producer_done => { c with producerDone := true }
  | .drain => c

/-- What one `poll()` invocation decides to do after the dequeue attempt. -/
inductive PollAction where
  | exitDone
  | sleepRepoll
  | processRowNow (id : Nat)
  | busyRetry
deriving DecidableEq

/-- Outcome of the `dequeue.get()` transaction. -/
inductive ClaimOutcome where
  | busy
  | empty
  | row (id : Nat)
deriving DecidableEq

/-- The head of `poll()`: a SQLITE_BUSY error reschedules the poll after
200 ms; an empty result increments `emptyPolls` and exits only when
`producerDone && emptyPolls >= 3`, otherwise sleeps 200 ms; a returned row
resets `emptyPolls` and is processed. -/
def pollStep (c : CState) (o : ClaimOutcome) : CState × PollAction :=
  match o with
  | .busy => (c, PollAction.busyRetry)
  | .empty =>
      let c2 : CState := { c with emptyPolls := c.emptyPolls + 1 }
      if c2.producerDone = true ∧ 3 ≤ c2.emptyPolls
      then (c2, PollAction.exitDone)
      else (c2, PollAction.sleepRepoll)
  | .row id => ({ c with emptyPolls := 0 }, PollAction.processRowNow id)

/-- An observable event in a consumer's life: a message delivery or a poll
with a given dequeue outcome. -/
inductive CEvent where
  | msg (m : WMsg)
  | poll (o : ClaimOutcome)
deriving DecidableEq

/-- Consumer state plus whether the loop has exited (posted
`consumer_done` and stopped rescheduling). -/
structure CRun where
  c : CState
  exited : Bool
deriving DecidableEq

/-- Process one event.  After the loop has exited nothing further changes
(the worker no longer polls). -/
def cstep (s : CRun) (e : CEvent) : CRun :=
  if s.exited then s
  else
    match e with
    | .msg m => { s with c := onMessage s.c m }
    | .poll o =>
        let p := pollStep s.c o
        { c := p.1, exited := p.2 == PollAction.exitDone }

/-- A consumer starts with `producerDone = false`, `emptyPolls = 0`. -/
def initC : CRun := { c := { producerDone := false, emptyPolls := 0 }, exited := false }

/-- Run a consumer over a sequence of events. -/
def runC (events : List CEvent) : CRun := events.foldl cstep initC

/-! ## Row processing error structure (`src/consumer.js`, the try/catch
around the HTTP fan-out and `markDone.run`) -/

/-- Outcome of one store `.run` call: success, a SQLITE_BUSY throw, or any
other throw. -/
inductive StoreOutcome where
  | ok
  | busyErr
  | otherErr
deriving DecidableEq

/-- Outcome of `Promise.all` over the three fetches: all resolved, or some
request rejected. -/
inductive FetchOutcome where
  | ok (res : Fanout)
  | err
deriving DecidableEq

/-- How one claimed row ends up, as seen from the worker. -/
inductive IterOutcome where
  | rowDone
  | rowFailed
  | workerCrash
deriving DecidableEq

/-- The body of `poll()` after a successful claim: the fan-out and
`markDone.run` sit in a `try` whose `catch` logs and calls
`markFailed.run(row.id)`; `markFailed.run` itself is not guarded, so a
throw from it propagates out of `poll` and kills the worker.  `mfail` is
consulted only on the paths that actually reach `markFailed.run`. -/
def processRow (http : FetchOutcome) (mdone : StoreOutcome) (mfail : StoreOutcome) : IterOutcome :=
  match http with
  | .ok _ =>
      match mdone with
      | .ok => IterOutcome.rowDone
      | .busyErr | .otherErr =>
          match mfail with
          | .ok => IterOutcome.rowFailed
          | .busyErr | .otherErr => IterOutcome.workerCrash
  | .err =>
      match mfail with
      | .ok => IterOutcome.rowFailed
      | .busyErr | .otherErr => IterOutcome.workerCrash

/-! ## Orchestrator consumer accounting and exit code (`src/index.js`) -/

/-- Lifecycle events the orchestrator's handlers react to: a
`consumer_done` message, a worker `exit` event with its code, and the 30 s
drain safety timer. -/
inductive OEvent where
  | consumerDoneMsg (tid : Nat)
  | consumerExit (tid : Nat) (code : Nat)
  | drainTimeout
deriving DecidableEq

/-- Orchestrator state: the `consumersDone` set (as an insertion-ordered
duplicate-free list), the `shuttingDown` latch, and the code passed to
`process.exit` by the first effective `shutdown` call. -/
structure OState where
  consumersDone : List Nat
  shuttingDown : Bool
  exitCode : Option Nat
deriving DecidableEq

/-- `shutdown(code)`: idempotent, first caller wins. -/
def oshutdown (code : Nat) (s : OState) : OState :=
  if s.shuttingDown then s
  else { s with shuttingDown := true, exitCode := some code }

/-- `Set.add` semantics for `consumersDone`. -/
def insertTid (tid : Nat) (l : List Nat) : List Nat :=
  if tid ∈ l then l else l ++ [tid]

/-- One orchestrator event, with `n` the number of consumer workers.  The
`consumer_done` handler adds the thread id and calls `shutdown(0)` once the
set is full; the `exit` handler reacts only to a non-zero code while not
already shutting down and not already accounted, adds the id, and calls
`shutdown(1)` once the set is full; the drain safety timer calls
`shutdown(0)`. -/
def ostep (n : Nat) (s : OState) (e : OEvent) : OState :=
  match e with
  | .consumerDoneMsg tid =>
      let d := insertTid tid s.consumersDone
      let s2 : OState := { s with consumersDone := d }
      if d.length = n then oshutdown 0 s2 else s2
  | .consumerExit tid code =>
      if code ≠ 0 ∧ s.shuttingDown = false ∧ tid ∉ s.consumersDone then
        let d := insertTid tid s.consumersDone
        let s2 : OState := { s with consumersDone := d }
        if d.length = n then oshutdown 1 s2 else s2
      else s
  | .drainTimeout => oshutdown 0 s

/-- Run the orchestrator's handlers over a sequence of events. -/
def runO (n : Nat) (events : List OEvent) : OState :=
  events.foldl (ostep n) { consumersDone := [], shuttingDown := false, exitCode := none }

/-! ## Producer paging loop (`src/producer.js`) -/

/-- The clipping step of one producer iteration: `rows` is the fetched
page, `remaining = ROW_LIMIT - totalInserted` when a limit is set (else
the page length), and the batch is `rows.slice(0, remaining)` when the
remainder is smaller than the page. -/
def produceBatch (pageSize rowLimit : Nat) (upstream : List Int) (totalInserted : Nat) :
    List Int :=
  let rows := upstream.take pageSize
  let remaining := if 0 < rowLimit then rowLimit - totalInserted else rows.length
  if remaining < rows.length then rows.take remaining else rows

/-- The `produce()` loop: fetch up to `pageSize` rows at the current
offset; stop on an empty page; otherwise clip the batch so that
`totalInserted` does not exceed `rowLimit` (when `rowLimit > 0`), insert
it, post `batch_inserted` with the batch length, and stop once the limit
is reached.  Returns the posted batch counts and the final
`totalInserted` reported by `producer_done`. -/
def produceAux (pageSize rowLimit : Nat) (upstream : List Int) (totalInserted : Nat) :
    List Nat × Nat :=
  if hrows : upstream.take pageSize = [] then ([], totalInserted)
  else
    if 0 < rowLimit ∧
        rowLimit ≤ totalInserted + (produceBatch pageSize rowLimit upstream totalInserted).length
    then ([(produceBatch pageSize rowLimit upstream totalInserted).length],
          totalInserted + (produceBatch pageSize rowLimit upstream totalInserted).length)
    else
      ((produceBatch pageSize rowLimit upstream totalInserted).length ::
          (produceAux pageSize rowLimit (upstream.drop pageSize)
            (totalInserted + (produceBatch pageSize rowLimit upstream totalInserted).length)).1,
       (produceAux pageSize rowLimit (upstream.drop pageSize)
          (totalInserted + (produceBatch pageSize rowLimit upstream totalInserted).length)).2)
termination_by upstream.length
decreasing_by
  have hup : upstream ≠ [] := by
    intro hnil
    exact hrows (by simp [hnil])
  have hps : 0 < pageSize := by
    rcases Nat.eq_zero_or_pos pageSize with h0 | h0
    · exact absurd (by simp [h0]) hrows
    · exact h0
  simp only [List.length_drop]
  exact Nat.sub_lt (List.length_pos.mpr hup) hps

/-- Run the producer from offset 0 with nothing yet inserted. -/
def produce (pageSize rowLimit : Nat) (upstream : List Int) : List Nat × Nat :=
  produceAux pageSize rowLimit upstream 0

/-! ## Delay formatting (`randomDelay` in `src/consumer.js`) -/

/-- `Number.prototype.toFixed(2)`: round to the nearest hundredth (the
delay string interpolated into the URL, read back as a number). -/
def toFixed2 (q : ℚ) : ℚ := (round (q * 100) : ℤ) / 100

/-- `randomDelay()`: `(Math.random() * 0.15 + 0.1).toFixed(2)`, with `r`
standing for the `Math.random()` draw in `[0, 1)`.  Modelled over exact
rationals; the rounding behaviour exhibited below also occurs with binary
doubles. -/
def randomDelay (r : ℚ) : ℚ := toFixed2 (r * (15 / 100) + 1 / 10)

/-! ## Auxiliary definitions used by the statements below -/

/-- A sample fan-out result used for concrete evaluations. -/
def exFanout : Fanout :=
  { r1 := { body := "a", status := 200, duration_ms := 1 },
    r2 := { body := "b", status := 200, duration_ms := 1 },
    r3 := { body := "c", status := 200, duration_ms := 1 } }

/-- Invariant backing the no-double-claim property: the claimed ids are
distinct, bounded by the AUTOINCREMENT counter (as are all row ids), and
no row carrying a claimed id is still `pending`. -/
def ClaimInv (s : RunState) : Prop :=
  s.claimed.Nodup ∧
  (∀ id ∈ s.claimed, id < s.q.nextId) ∧
  (∀ r ∈ s.q.rows, r.id < s.q.nextId) ∧
  (∀ id ∈ s.claimed, ∀ r ∈ s.q.rows, r.id = id → r.status ≠ Status.pending)

/-- Invariant backing the forward direction of done-completeness: every
`done` row has all nine result columns non-null. -/
def DoneInv (q : QState) : Prop :=
  ∀ r ∈ q.rows, r.status = Status.done → results_complete r = true

/-- Invariant backing the consumer-exit guard: an exited consumer saw
`producerDone` and at least three consecutive empty polls. -/
def CInv (s : CRun) : Prop :=
  s.exited = true → (s.c.producerDone = true ∧ 3 ≤ s.c.emptyPolls)

/-! ## Helper lemmas -/

/-- Inserting a batch only appends fresh-id pending rows: the counter is
monotone, ids stay below the counter, and every row of the result either
was present before or is a new pending row with id at least the old
counter. -/
theorem enqueue_batch_facts (now : Nat) :
    ∀ (batch : List (Int × String)) (s : QState),
      (∀ r ∈ s.rows, r.id < s.nextId) →
      s.nextId ≤ (enqueue_batch now batch s).nextId ∧
      (∀ r ∈ (enqueue_batch now batch s).rows, r.id < (enqueue_batch now batch s).nextId) ∧
      (∀ r ∈ (enqueue_batch now batch s).rows,
        r ∈ s.rows ∨ (s.nextId ≤ r.id ∧ r.status = Status.pending)) := by
  intro batch
  induction batch with
  | nil =>
      intro s h
      exact ⟨le_refl _, h, fun r hr => Or.inl hr⟩
  | cons p rest ih =>
      intro s h
      obtain ⟨src, pl⟩ := p
      set s1 : QState :=
        { rows := s.rows ++ [newRow s.nextId now src pl], nextId := s.nextId + 1 } with hs1
      have h1 : ∀ r ∈ s1.rows, r.id < s1.nextId := by
        intro r hr
        rcases List.mem_append.mp hr with hr | hr
        · exact Nat.lt_succ_of_lt (h r hr)
        · rcases List.mem_singleton.mp hr with rfl
          exact Nat.lt_succ_self _
      obtain ⟨hle, hall, hmem⟩ := ih s1 h1
      have heq : enqueue_batch now ((src, pl) :: rest) s = enqueue_batch now rest s1 := by
        rw [enqueue_batch]
      rw [heq]
      refine ⟨le_trans (Nat.le_succ _) hle, hall, ?_⟩
      intro r hr
      rcases hmem r hr with hr1 | hr1
      · rcases List.mem_append.mp hr1 with hr2 | hr2
        · exact Or.inl hr2
        · rcases List.mem_singleton.mp hr2 with rfl
          exact Or.inr ⟨le_refl _, rfl⟩
      · exact Or.inr ⟨le_trans (Nat.le_succ _) hr1.1, hr1.2⟩

/-- Every run-time operation other than `reset_orphans` preserves
`ClaimInv`. -/
theorem stepOp_claimInv (s : RunState) (op : Op) (hop : op ≠ Op.resetOrphans)
    (h : ClaimInv s) : ClaimInv (stepOp s op) := by
  obtain ⟨hnd, hclt, hrlt, hnp⟩ := h
  cases op with
  | enqueue now batch =>
      obtain ⟨hle, hall, hmem⟩ := enqueue_batch_facts now batch s.q hrlt
      refine ⟨hnd, fun id hid => lt_of_lt_of_le (hclt id hid) hle, hall, ?_⟩
      intro id hid r hr hrid
      rcases hmem r hr with hr1 | hr1
      · exact hnp id hid r hr1 hrid
      · exact absurd (hrid ▸ hr1.1) (Nat.not_le_of_lt (hclt id hid))
  | claim now =>
      show ClaimInv (stepOp s (Op.claim now))
      rw [stepOp]
      cases hfind : s.q.rows.find? (fun r => r.status == Status.pending) with
      | none =>
          rw [claim_one, hfind]
          exact ⟨hnd, hclt, hrlt, hnp⟩
      | some r =>
          rw [claim_one, hfind]
          have hrmem : r ∈ s.q.rows := List.mem_of_find?_eq_some hfind
          have hrpend : r.status = Status.pending := by
            have := List.find?_some hfind
            simpa using this
          have hnotclaimed : r.id ∉ s.claimed := by
            intro hin
            exact hnp r.id hin r hrmem rfl hrpend
          refine ⟨?_, ?_, ?_, ?_⟩
          · simpa [List.nodup_append] using ⟨hnd, hnotclaimed⟩
          · intro id hid
            rcases List.mem_append.mp hid with hid | hid
            · exact hclt id hid
            · rcases List.mem_singleton.mp hid with rfl
              exact hrlt r hrmem
          · intro q hq
            rcases List.mem_map.mp hq with ⟨q0, hq0, rfl⟩
            by_cases hqid : q0.id = r.id
            · simpa [hqid, claimRow] using hrlt q0 hq0
            · simpa [hqid] using hrlt q0 hq0
          · intro id hid q hq hqid
            rcases List.mem_map.mp hq with ⟨q0, hq0, rfl⟩
            by_cases hq0id : q0.id = r.id
            · simp [hq0id, claimRow]
            · rw [if_neg hq0id] at hqid ⊢
              rcases List.mem_append.mp hid with hid | hid
              · exact hnp id hid q0 hq0 hqid
              · rcases List.mem_singleton.mp hid with rfl
                exact absurd hqid hq0id
  | markDone id res =>
      refine ⟨hnd, hclt, ?_, ?_⟩
      · intro q hq
        rcases List.mem_map.mp hq with ⟨q0, hq0, rfl⟩
        by_cases hq0id : q0.id = id
        · simpa [hq0id, applyDone] using hrlt q0 hq0
        · simpa [hq0id] using hrlt q0 hq0
      · intro cid hcid q hq hqid
        rcases List.mem_map.mp hq with ⟨q0, hq0, rfl⟩
        by_cases hq0id : q0.id = id
        · simp [hq0id, applyDone]
        · rw [if_neg hq0id] at hqid ⊢
          exact hnp cid hcid q0 hq0 hqid
  | markFailed id =>
      refine ⟨hnd, hclt, ?_, ?_⟩
      · intro q hq
        rcases List.mem_map.mp hq with ⟨q0, hq0, rfl⟩
        by_cases hq0id : q0.id = id
        · simpa [hq0id] using hrlt q0 hq0
        · simpa [hq0id] using hrlt q0 hq0
      · intro cid hcid q hq hqid
        rcases List.mem_map.mp hq with ⟨q0, hq0, rfl⟩
        by_cases hq0id : q0.id = id
        · simp [hq0id]
        · rw [if_neg hq0id] at hqid ⊢
          exact hnp cid hcid q0 hq0 hqid
  | resetOrphans => exact absurd rfl hop

/-- Folding reset-free operations preserves `ClaimInv`. -/
theorem foldl_claimInv :
    ∀ (ops : List Op) (s : RunState),
      (∀ op ∈ ops, op ≠ Op.resetOrphans) → ClaimInv s →
      ClaimInv (ops.foldl stepOp s) := by
  intro ops
  induction ops with
  | nil => intro s _ h; exact h
  | cons op rest ih =>
      intro s hops h
      rw [List.foldl_cons]
      exact ih (stepOp s op)
        (fun o ho => hops o (List.mem_cons_of_mem _ ho))
        (stepOp_claimInv s op (hops op (List.mem_cons_self _ _)) h)

/-- Non-claim operations never extend the list of claim returns. -/
theorem stepOp_claimed_eq (s : RunState) (op : Op) (hop : Op.isClaim op = false) :
    (stepOp s op).claimed = s.claimed := by
  cases op with
  | enqueue now batch => rfl
  | claim now => simp [Op.isClaim] at hop
  | markDone id res => rfl
  | markFailed id => rfl
  | resetOrphans => rfl

/-- Folding claim-free operations leaves the claim returns unchanged. -/
theorem foldl_claimed_eq :
    ∀ (ops : List Op) (s : RunState),
      (∀ op ∈ ops, Op.isClaim op = false) →
      (ops.foldl stepOp s).claimed = s.claimed := by
  intro ops
  induction ops with
  | nil => intro s _; rfl
  | cons op rest ih =>
      intro s hops
      rw [List.foldl_cons, ih (stepOp s op) (fun o ho => hops o (List.mem_cons_of_mem _ ho)),
        stepOp_claimed_eq s op (hops op (List.mem_cons_self _ _))]

/-- The fresh database satisfies `ClaimInv`. -/
theorem claimInv_init : ClaimInv initRun := by
  refine ⟨List.nodup_nil, ?_, ?_, ?_⟩ <;> intro x hx <;> simp [initRun] at hx

/-- Rows present after a batch insert either predate it or are pending. -/
theorem enqueue_batch_mem_or_pending (now : Nat) :
    ∀ (batch : List (Int × String)) (s : QState),
      ∀ r ∈ (enqueue_batch now batch s).rows, r ∈ s.rows ∨ r.status = Status.pending := by
  intro batch
  induction batch with
  | nil => intro s r hr; exact Or.inl hr
  | cons p rest ih =>
      intro s r hr
      obtain ⟨src, pl⟩ := p
      rw [enqueue_batch] at hr
      rcases ih _ r hr with hr1 | hr1
      · rcases List.mem_append.mp hr1 with hr2 | hr2
        · exact Or.inl hr2
        · rcases List.mem_singleton.mp hr2 with rfl
          exact Or.inr rfl
      · exact Or.inr hr1

/-- Every queue operation, `reset_orphans` included, preserves
`DoneInv`. -/
theorem stepOp_doneInv (s : RunState) (op : Op) (h : DoneInv s.q) :
    DoneInv (stepOp s op).q := by
  cases op with
  | enqueue now batch =>
      intro r hr hdone
      rcases enqueue_batch_mem_or_pending now batch s.q r hr with hr1 | hr1
      · exact h r hr1 hdone
      · rw [hr1] at hdone; exact Status.noConfusion hdone
  | claim now =>
      show DoneInv (stepOp s (Op.claim now)).q
      rw [stepOp]
      cases hfind : s.q.rows.find? (fun r => r.status == Status.pending) with
      | none => rw [claim_one, hfind]; exact h
      | some r0 =>
          rw [claim_one, hfind]
          intro r hr hdone
          rcases List.mem_map.mp hr with ⟨q0, hq0, rfl⟩
          by_cases hq0id : q0.id = r0.id
          · rw [if_pos hq0id] at hdone
            exact Status.noConfusion hdone
          · rw [if_neg hq0id] at hdone ⊢
            exact h q0 hq0 hdone
  | markDone id res =>
      intro r hr hdone
      rcases List.mem_map.mp hr with ⟨q0, hq0, rfl⟩
      by_cases hq0id : q0.id = id
      · rw [if_pos hq0id]
        simp [applyDone, results_complete]
      · rw [if_neg hq0id] at hdone ⊢
        exact h q0 hq0 hdone
  | markFailed id =>
      intro r hr hdone
      rcases List.mem_map.mp hr with ⟨q0, hq0, rfl⟩
      by_cases hq0id : q0.id = id
      · rw [if_pos hq0id] at hdone
        exact Status.noConfusion hdone
      · rw [if_neg hq0id] at hdone ⊢
        exact h q0 hq0 hdone
  | resetOrphans =>
      intro r hr hdone
      rcases List.mem_map.mp hr with ⟨q0, hq0, rfl⟩
      by_cases hq0s : q0.status = Status.processing
      · rw [if_pos hq0s] at hdone
        exact Status.noConfusion hdone
      · rw [if_neg hq0s] at hdone ⊢
        exact h q0 hq0 hdone

/-- One consumer event preserves `CInv`. -/
theorem cstep_cInv (s : CRun) (e : CEvent) (h : CInv s) : CInv (cstep s e) := by
  by_cases hex : s.exited = true
  · rw [cstep.eq_def, if_pos hex]
    exact h
  · have hex2 : s.exited = false := by simpa using hex
    rw [cstep.eq_def, hex2]
    simp only [Bool.false_eq_true, if_false]
    cases e with
    | msg m =>
        intro habs
        simp at habs
    | poll o =>
        cases o with
        | busy =>
            intro habs
            simp [pollStep] at habs
        | row id =>
            intro habs
            simp [pollStep] at habs
        | empty =>
            intro habs
            simp only [pollStep] at habs ⊢
            by_cases hcond : s.c.producerDone = true ∧ 3 ≤ s.c.emptyPolls + 1
            · rw [if_pos hcond]
              exact ⟨hcond.1, hcond.2⟩
            · rw [if_neg (by simpa using hcond)] at habs
              simp at habs

/-- An orchestrator step can only set exit code 1 from a non-zero
consumer exit event. -/
theorem ostep_exit_one (n : Nat) (s : OState) (e : OEvent)
    (h : (ostep n s e).exitCode = some 1) :
    s.exitCode = some 1 ∨ ∃ tid c, e = OEvent.consumerExit tid c ∧ c ≠ 0 := by
  cases e with
  | consumerDoneMsg tid =>
      rw [ostep] at h
      by_cases hfull : (insertTid tid s.consumersDone).length = n
      · rw [if_pos hfull, oshutdown] at h
        by_cases hsd : ({ s with consumersDone := insertTid tid s.consumersDone } : OState).shuttingDown
        · rw [if_pos hsd] at h; exact Or.inl h
        · rw [if_neg hsd] at h; simp at h
      · rw [if_neg hfull] at h; exact Or.inl h
  | consumerExit tid code =>
      rw [ostep] at h
      by_cases hg : code ≠ 0 ∧ s.shuttingDown = false ∧ tid ∉ s.consumersDone
      · rw [if_pos hg] at h
        by_cases hfull : (insertTid tid s.consumersDone).length = n
        · rw [if_pos hfull, oshutdown] at h
          by_cases hsd : ({ s with consumersDone := insertTid tid s.consumersDone } : OState).shuttingDown
          · rw [if_pos hsd] at h; exact Or.inl h
          · exact Or.inr ⟨tid, code, rfl, hg.1⟩
        · rw [if_neg hfull] at h; exact Or.inl h
      · rw [if_neg hg] at h; exact Or.inl h
  | drainTimeout =>
      rw [ostep, oshutdown] at h
      by_cases hsd : s.shuttingDown
      · rw [if_pos hsd] at h; exact Or.inl h
      · rw [if_neg hsd] at h; simp at h

/-- Orchestrator well-formedness: the exit code stays in {none, 0, 1} and
`shuttingDown` holds exactly when an exit code has been fixed. -/
theorem ostep_wf (n : Nat) (s : OState) (e : OEvent)
    (h : (s.exitCode = none ∨ s.exitCode = some 0 ∨ s.exitCode = some 1) ∧
         (s.shuttingDown = true ↔ s.exitCode ≠ none)) :
    ((ostep n s e).exitCode = none ∨ (ostep n s e).exitCode = some 0 ∨
      (ostep n s e).exitCode = some 1) ∧
    ((ostep n s e).shuttingDown = true ↔ (ostep n s e).exitCode ≠ none) := by
  obtain ⟨h1, h2⟩ := h
  cases e with
  | consumerDoneMsg tid =>
      simp only [ostep, oshutdown]
      split_ifs <;> first | exact ⟨h1, h2⟩ | simp
  | consumerExit tid code =>
      simp only [ostep, oshutdown]
      split_ifs <;> first | exact ⟨h1, h2⟩ | simp
  | drainTimeout =>
      simp only [ostep, oshutdown]
      split_ifs <;> first | exact ⟨h1, h2⟩ | simp

/-- Exit code 1 after a run traces back to some non-zero consumer exit
event. -/
theorem foldl_exit_one (n : Nat) :
    ∀ (events : List OEvent) (s : OState),
      ((events.foldl (ostep n) s).exitCode = some 1) →
      s.exitCode = some 1 ∨ ∃ tid c, OEvent.consumerExit tid c ∈ events ∧ c ≠ 0 := by
  intro events
  induction events with
  | nil => intro s h; exact Or.inl h
  | cons e rest ih =>
      intro s h
      rw [List.foldl_cons] at h
      rcases ih (ostep n s e) h with h1 | h1
      · rcases ostep_exit_one n s e h1 with h2 | ⟨tid, c, rfl, hc⟩
        · exact Or.inl h2
        · exact Or.inr ⟨tid, c, List.mem_cons_self _ _, hc⟩
      · obtain ⟨tid, c, hmem, hc⟩ := h1
        exact Or.inr ⟨tid, c, List.mem_cons_of_mem _ hmem, hc⟩

/-- The orchestrator well-formedness invariant holds along any event
sequence. -/
theorem foldl_owf (n : Nat) :
    ∀ (events : List OEvent) (s : OState),
      ((s.exitCode = none ∨ s.exitCode = some 0 ∨ s.exitCode = some 1) ∧
        (s.shuttingDown = true ↔ s.exitCode ≠ none)) →
      (((events.foldl (ostep n) s).exitCode = none ∨
        (events.foldl (ostep n) s).exitCode = some 0 ∨
        (events.foldl (ostep n) s).exitCode = some 1) ∧
       ((events.foldl (ostep n) s).shuttingDown = true ↔
        (events.foldl (ostep n) s).exitCode ≠ none)) := by
  intro events
  induction events with
  | nil => intro s h; exact h
  | cons e rest ih =>
      intro s h
      rw [List.foldl_cons]
      exact ih (ostep n s e) (ostep_wf n s e h)

/-- When a row limit is set, a clipped batch never exceeds what remains
of the limit. -/
theorem produceBatch_le (pageSize rowLimit : Nat) (upstream : List Int) (t : Nat)
    (hlim : 0 < rowLimit) :
    (produceBatch pageSize rowLimit upstream t).length ≤ rowLimit - t := by
  simp only [produceBatch, if_pos hlim]
  split_ifs with h
  · simp [List.length_take]
  · omega

/-- The producer's batch counts sum to the reported total, and the total
respects a positive row limit. -/
theorem produceAux_facts (pageSize rowLimit : Nat) :
    ∀ (n : Nat) (upstream : List Int), upstream.length ≤ n → ∀ (t : Nat),
      (t + (produceAux pageSize rowLimit upstream t).1.sum =
        (produceAux pageSize rowLimit upstream t).2) ∧
      (0 < rowLimit → t < rowLimit →
        (produceAux pageSize rowLimit upstream t).2 ≤ rowLimit) := by
  intro n
  induction n with
  | zero =>
      intro upstream hlen t
      have hnil : upstream = [] := List.length_eq_zero.mp (Nat.le_zero.mp hlen)
      subst hnil
      rw [produceAux]
      refine ⟨by simp, ?_⟩
      intro _ ht
      simp only [List.take_nil, dif_pos]
      omega
  | succ n ih =>
      intro upstream hlen t
      rw [produceAux]
      by_cases hrows : upstream.take pageSize = []
      · rw [dif_pos hrows]
        exact ⟨by simp, fun _ ht => le_of_lt ht⟩
      · rw [dif_neg hrows]
        by_cases hstop : 0 < rowLimit ∧
            rowLimit ≤ t + (produceBatch pageSize rowLimit upstream t).length
        · rw [if_pos hstop]
          refine ⟨by simp, ?_⟩
          intro hlim ht
          have hb := produceBatch_le pageSize rowLimit upstream t hlim
          omega
        · rw [if_neg hstop]
          have hdroplen : (upstream.drop pageSize).length ≤ n := by
            have hup : upstream ≠ [] := by
              intro hnil
              exact hrows (by simp [hnil])
            have hps : 0 < pageSize := by
              rcases Nat.eq_zero_or_pos pageSize with h0 | h0
              · exact absurd (by simp [h0]) hrows
              · exact h0
            have h1 : 0 < upstream.length := List.length_pos.mpr hup
            simp only [List.length_drop]
            omega
          obtain ⟨ihsum, ihbound⟩ := ih (upstream.drop pageSize) hdroplen
            (t + (produceBatch pageSize rowLimit upstream t).length)
          refine ⟨?_, ?_⟩
          · simp only [List.sum_cons]
            omega
          · intro hlim ht
            apply ihbound hlim
            rcases Nat.lt_or_ge
              (t + (produceBatch pageSize rowLimit upstream t).length) rowLimit with hlt | hge
            · exact hlt
            · exact absurd ⟨hlim, hge⟩ hstop

/-! ## Claims -/

/-- Claim C1: across the lifetime of the queue, every row id appears in at
most one successful `claim_one` return.  Stated over any sequence of
operations in which `reset_orphans` is not interleaved with the run
(matching the orchestrator, which runs `reset_orphans` only during
shutdown, after the consumer workers have been terminated): the claims of
the run phase followed by any claim-free shutdown phase carry pairwise
distinct row ids. -/
theorem claim_one_returns_each_id_at_most_once (a b : List Op)
    (ha : ∀ op ∈ a, op ≠ Op.resetOrphans)
    (hb : ∀ op ∈ b, Op.isClaim op = false) :
    (runOps (a ++ b)).claimed.Nodup := by
  rw [runOps, List.foldl_append]
  rw [foldl_claimed_eq b _ hb]
  exact (foldl_claimInv a initRun ha claimInv_init).1

/-- Witness for C1: a concrete run with two inserts, three claim attempts
and a shutdown reset yields distinct claimed ids. -/
theorem claim_one_returns_each_id_at_most_once_witness :
    (runOps ([Op.enqueue 0 [(1, "x"), (2, "y")], Op.claim 5, Op.claim 6, Op.claim 7] ++
      [Op.resetOrphans])).claimed.Nodup :=
  claim_one_returns_each_id_at_most_once
    [Op.enqueue 0 [(1, "x"), (2, "y")], Op.claim 5, Op.claim 6, Op.claim 7]
    [Op.resetOrphans] (by decide) (by decide)

/-- Claim C2: the spec says a consumer with the draining flag set finishes
its current row and exits at its very next poll attempt regardless of
`empty_polls`.  The consumer code has no draining flag at all: its message
handler reacts only to `producer_done`, so a `drain` message leaves the
state unchanged and the next empty poll merely sleeps and reschedules
instead of exiting — evaluated here at the failing input (drain received,
then an empty poll). -/
theorem drain_message_ignored_by_consumer :
    onMessage { producerDone := false, emptyPolls := 0 } WMsg.drain
      = { producerDone := false, emptyPolls := 0 } ∧
    pollStep (onMessage { producerDone := true, emptyPolls := 0 } WMsg.drain)
        ClaimOutcome.empty
      = ({ producerDone := true, emptyPolls := 1 }, PollAction.sleepRepoll) ∧
    (runC [CEvent.msg WMsg.drain, CEvent.poll ClaimOutcome.empty]).exited = false := by
  refine ⟨rfl, by decide, by decide⟩

/-- Counterexample to claim C3: the `markDone` UPDATE has no status guard
and `better-sqlite3` raises no error for it, so `mark_done` on a row that
is `pending` (not `processing`) succeeds silently, reporting one changed
row and leaving the row `done`. -/
theorem mark_done_on_pending_row_succeeds_cex :
    ((enqueue_batch 0 [(5, "p")] { rows := [], nextId := 1 }).rows.all
      (fun r => r.status == Status.pending)) = true ∧
    (mark_done 1 exFanout (enqueue_batch 0 [(5, "p")] { rows := [], nextId := 1 })).1 = 1 ∧
    ((mark_done 1 exFanout (enqueue_batch 0 [(5, "p")] { rows := [], nextId := 1 })).2.rows.all
      (fun r => r.status == Status.done && results_complete r)) = true := by
  refine ⟨by decide, by decide, by decide⟩

/-- Claim C3 amended: `mark_done(id, results)` never fails; whatever the
prior status, it unconditionally sets every row whose id matches to `done`
with the nine result fields, leaves all other columns and rows unchanged,
and reports the number of matching rows (0 when the id is absent). -/
theorem mark_done_updates_unconditionally :
    ∀ (s : QState) (id : Nat) (res : Fanout),
      (mark_done id res s).1 = (s.rows.filter (fun r => r.id == id)).length ∧
      (mark_done id res s).2.rows.length = s.rows.length ∧
      List.Forall₂ (fun old new =>
          (old.id ≠ id → new = old) ∧
          (old.id = id →
            new.status = Status.done ∧
            new.result_1_body = some res.r1.body ∧
            new.result_1_status = some res.r1.status ∧
            new.result_1_duration_ms = some res.r1.duration_ms ∧
            new.result_2_body = some res.r2.body ∧
            new.result_2_status = some res.r2.status ∧
            new.result_2_duration_ms = some res.r2.duration_ms ∧
            new.result_3_body = some res.r3.body ∧
            new.result_3_status = some res.r3.status ∧
            new.result_3_duration_ms = some res.r3.duration_ms ∧
            new.id = old.id ∧
            new.source_id = old.source_id ∧
            new.payload = old.payload ∧
            new.created_at = old.created_at ∧
            new.processed_at = old.processed_at))
        s.rows (mark_done id res s).2.rows := by
  intro s id res
  refine ⟨rfl, by simp [mark_done], ?_⟩
  show List.Forall₂ _ s.rows (s.rows.map fun r => if r.id = id then applyDone res r else r)
  rw [List.forall₂_map_right_iff, List.forall₂_same]
  intro r _hr
  constructor
  · intro hne
    rw [if_neg hne]
  · intro heq
    rw [if_pos heq]
    simp [applyDone]

/-- Witness for the amended C3 at a concrete one-row database. -/
theorem mark_done_updates_unconditionally_witness :
    ((mark_done 1 exFanout { rows := [newRow 1 0 5 "p"], nextId := 2 }).1
      = (([newRow 1 0 5 "p"] : List Row).filter (fun r => r.id == 1)).length) ∧
    (mark_done 1 exFanout { rows := [newRow 1 0 5 "p"], nextId := 2 }).2.rows.length
      = ([newRow 1 0 5 "p"] : List Row).length :=
  ⟨(mark_done_updates_unconditionally { rows := [newRow 1 0 5 "p"], nextId := 2 } 1 exFanout).1,
   (mark_done_updates_unconditionally { rows := [newRow 1 0 5 "p"], nextId := 2 } 1 exFanout).2.1⟩

/-- Counterexample to claim C4: `emptyPolls` is not reset when
`producer_done` arrives, so empty polls observed before the signal count
toward the threshold: after three pre-signal empty polls the consumer
exits on the first empty poll after `producer_done`, not the third. -/
theorem consumer_exits_after_one_post_done_empty_poll_cex :
    (runC [CEvent.poll ClaimOutcome.empty, CEvent.poll ClaimOutcome.empty,
      CEvent.poll ClaimOutcome.empty]).exited = false ∧
    (runC [CEvent.poll ClaimOutcome.empty, CEvent.poll ClaimOutcome.empty,
      CEvent.poll ClaimOutcome.empty, CEvent.msg WMsg.producer_done]).exited = false ∧
    (runC [CEvent.poll ClaimOutcome.empty, CEvent.poll ClaimOutcome.empty,
      CEvent.poll ClaimOutcome.empty, CEvent.msg WMsg.producer_done,
      CEvent.poll ClaimOutcome.empty]).exited = true := by
  refine ⟨by decide, by decide, by decide⟩

/-- Claim C4 amended: a consumer exits through the drain-detection path
only when it has received `producer_done` and its count of consecutive
empty polls — counted since the last claimed row, whether observed before
or after the signal — has reached three. -/
theorem consumer_exit_requires_done_flag_and_three_empty_polls :
    ∀ (events : List CEvent), (runC events).exited = true →
      (runC events).c.producerDone = true ∧ 3 ≤ (runC events).c.emptyPolls := by
  intro events
  have hgen : ∀ (l : List CEvent) (s : CRun), CInv s → CInv (l.foldl cstep s) := by
    intro l
    induction l with
    | nil => intro s h; exact h
    | cons e rest ih =>
        intro s h
        rw [List.foldl_cons]
        exact ih (cstep s e) (cstep_cInv s e h)
  exact hgen events initC (by intro habs; simp [initC] at habs)

/-- Witness for the amended C4 at a concrete exiting trace. -/
theorem consumer_exit_requires_done_flag_and_three_empty_polls_witness :
    (runC [CEvent.msg WMsg.producer_done, CEvent.poll ClaimOutcome.empty,
      CEvent.poll ClaimOutcome.empty, CEvent.poll ClaimOutcome.empty]).c.producerDone = true ∧
    3 ≤ (runC [CEvent.msg WMsg.producer_done, CEvent.poll ClaimOutcome.empty,
      CEvent.poll ClaimOutcome.empty, CEvent.poll ClaimOutcome.empty]).c.emptyPolls :=
  consumer_exit_requires_done_flag_and_three_empty_polls
    [CEvent.msg WMsg.producer_done, CEvent.poll ClaimOutcome.empty,
      CEvent.poll ClaimOutcome.empty, CEvent.poll ClaimOutcome.empty] (by decide)

/-- Counterexample to claim C5: with two consumers, one crashes (exit
code 1) before reporting `consumer_done`; the crash handler adds it to the
accounting set without shutting down, and when the other consumer later
reports `consumer_done` the full set triggers `shutdown(0)` — the process
exits 0 despite the earlier non-zero consumer exit. -/
theorem orchestrator_exits_zero_after_consumer_crash_cex :
    (runO 2 [OEvent.consumerExit 1 1, OEvent.consumerDoneMsg 2]).exitCode = some 0 := by
  decide

/-- Claim C5 amended: exit code 1 is produced only when some consumer
exited non-zero before being accounted; a non-zero consumer exit does not
force exit code 1 (the code that completes the accounting set decides),
and a shut-down run whose events contain no non-zero consumer exit always
exits 0 (covering normal completion and deadline drain). -/
theorem exit_code_one_only_after_nonzero_exit :
    ∀ (n : Nat) (events : List OEvent),
      ((runO n events).exitCode = some 1 →
        ∃ tid c, OEvent.consumerExit tid c ∈ events ∧ c ≠ 0) ∧
      ((runO n events).shuttingDown = true →
        (∀ tid c, OEvent.consumerExit tid c ∈ events → c = 0) →
        (runO n events).exitCode = some 0) := by
  intro n events
  constructor
  · intro h
    rcases foldl_exit_one n events _ h with h1 | h1
    · simp at h1
    · exact h1
  · intro hsd hzero
    have hwf := foldl_owf n events { consumersDone := [], shuttingDown := false, exitCode := none }
      (by simp)
    rcases hwf.1 with h1 | h1 | h1
    · exact absurd (hwf.2.mp hsd) (by simp [runO] at h1 ⊢; exact h1)
    · simpa [runO] using h1
    · have := foldl_exit_one n events _ (by simpa [runO] using h1)
      rcases this with h2 | ⟨tid, c, hmem, hc⟩
      · simp at h2
      · exact absurd (hzero tid c hmem) hc

/-- Witness for the amended C5: a crash-completed singleton run exits 1,
and a run completed by `consumer_done` messages alone exits 0. -/
theorem exit_code_one_only_after_nonzero_exit_witness :
    (∃ tid c, OEvent.consumerExit tid c ∈ [OEvent.consumerExit 1 2] ∧ c ≠ 0) ∧
    (runO 2 [OEvent.consumerDoneMsg 1, OEvent.consumerDoneMsg 2]).exitCode = some 0 :=
  ⟨(exit_code_one_only_after_nonzero_exit 1 [OEvent.consumerExit 1 2]).1 (by decide),
   (exit_code_one_only_after_nonzero_exit 2
      [OEvent.consumerDoneMsg 1, OEvent.consumerDoneMsg 2]).2 (by decide)
      (by intro tid c h; simp at h)⟩

/-- Counterexample to claim C6: a busy-timeout thrown by `markDone.run`
lands in the per-row catch, which marks the row failed (no 200 ms retry of
`mark_done`), and a busy-timeout thrown by `markFailed.run` propagates
and is fatal to the worker. -/
theorem busy_timeout_on_mark_done_marks_row_failed_cex :
    processRow (FetchOutcome.ok exFanout) StoreOutcome.busyErr StoreOutcome.ok
      = IterOutcome.rowFailed ∧
    processRow (FetchOutcome.ok exFanout) StoreOutcome.busyErr StoreOutcome.busyErr
      = IterOutcome.workerCrash := by
  exact ⟨rfl, rfl⟩

/-- Claim C6 amended: only `claim_one` busy-timeouts get the 200 ms
backoff-and-retry; a busy-timeout from `mark_done` is caught by the row's
error handler and records the row as failed, and a busy-timeout from
`mark_failed` is fatal to the worker. -/
theorem busy_timeout_retry_only_for_claim :
    (∀ c : CState, pollStep c ClaimOutcome.busy = (c, PollAction.busyRetry)) ∧
    (∀ res : Fanout,
      processRow (FetchOutcome.ok res) StoreOutcome.busyErr StoreOutcome.ok
        = IterOutcome.rowFailed) ∧
    (∀ res : Fanout,
      processRow (FetchOutcome.ok res) StoreOutcome.busyErr StoreOutcome.busyErr
        = IterOutcome.workerCrash) :=
  ⟨fun _ => rfl, fun _ => rfl, fun _ => rfl⟩

/-- Counterexample to claim C7: `mark_failed` has no status guard, so the
sequence enqueue, claim, `mark_done`, `mark_failed` leaves a row whose
status is `failed` while all nine result columns are non-null — the
backward direction of the claimed equivalence fails. -/
theorem failed_row_with_complete_results_cex :
    ((runOps [Op.enqueue 0 [(5, "p")], Op.claim 1, Op.markDone 1 exFanout,
        Op.markFailed 1]).q.rows.all
      (fun r => r.status == Status.failed && results_complete r)) = true := by
  decide

/-- Claim C7 amended: only the forward direction holds — after any
sequence of queue operations, every row with status `done` has all nine
result columns non-null; a row with all nine columns non-null need not be
`done`. -/
theorem done_rows_have_complete_results :
    ∀ (ops : List Op), ∀ r ∈ (runOps ops).q.rows,
      r.status = Status.done → results_complete r = true := by
  intro ops
  have hgen : ∀ (l : List Op) (s : RunState), DoneInv s.q → DoneInv (l.foldl stepOp s).q := by
    intro l
    induction l with
    | nil => intro s h; exact h
    | cons op rest ih =>
        intro s h
        rw [List.foldl_cons]
        exact ih (stepOp s op) (stepOp_doneInv s op h)
  exact hgen ops initRun (by intro r hr _; simp [initRun] at hr)

/-- Witness for the amended C7 at a run ending in `mark_done`. -/
theorem done_rows_have_complete_results_witness :
    results_complete (applyDone exFanout (claimRow 1 (newRow 1 0 5 "p"))) = true :=
  done_rows_have_complete_results [Op.enqueue 0 [(5, "p")], Op.claim 1, Op.markDone 1 exFanout]
    (applyDone exFanout (claimRow 1 (newRow 1 0 5 "p"))) (by decide) (by decide)

/-- Counterexample to claim C8: `toFixed(2)` rounds to the nearest
hundredth, so the draw `r = 0.99` gives `0.99 * 0.15 + 0.1 = 0.2485`,
which formats to `0.25` — the formatted delay reaches `0.25`, refuting
the claimed strict upper bound. -/
theorem formatted_delay_reaches_upper_endpoint_cex :
    (0 : ℚ) ≤ 99 / 100 ∧ (99 : ℚ) / 100 < 1 ∧
    randomDelay (99 / 100) = 25 / 100 ∧
    ¬ randomDelay (99 / 100) < 25 / 100 := by
  refine ⟨by norm_num, by norm_num, ?_, ?_⟩ <;>
    norm_num [randomDelay, toFixed2, round_eq]

/-- Claim C8 amended: for every draw in `[0, 1)` the formatted delay is a
two-decimal value in the closed interval `[0.10, 0.25]` — at least 0.10,
and at most (but possibly equal to) 0.25. -/
theorem formatted_delay_in_closed_interval (r : ℚ) (h0 : 0 ≤ r) (h1 : r < 1) :
    1 / 10 ≤ randomDelay r ∧ randomDelay r ≤ 1 / 4 := by
  set q := (r * (15 / 100) + 1 / 10) * 100 with hq
  have hq0 : (10 : ℚ) ≤ q := by rw [hq]; nlinarith
  have hq1 : q ≤ 25 := by rw [hq]; nlinarith
  have hlo : (10 : ℤ) ≤ round q := by
    rw [round_eq]
    exact Int.le_floor.mpr (by push_cast; linarith)
  have hhi : round q ≤ (25 : ℤ) := by
    rw [round_eq]
    have hf : (⌊q + 1 / 2⌋ : ℚ) ≤ q + 1 / 2 := Int.floor_le _
    have hf2 : (⌊q + 1 / 2⌋ : ℚ) < 26 := by linarith
    exact_mod_cast Int.lt_add_one_iff.mp (by exact_mod_cast hf2)
  have hcast0 : (10 : ℚ) ≤ ((round q : ℤ) : ℚ) := by exact_mod_cast hlo
  have hcast1 : ((round q : ℤ) : ℚ) ≤ 25 := by exact_mod_cast hhi
  unfold randomDelay toFixed2
  rw [← hq]
  constructor
  · rw [le_div_iff₀ (by norm_num : (0:ℚ) < 100)]
    linarith
  · rw [div_le_iff₀ (by norm_num : (0:ℚ) < 100)]
    linarith

/-- Witness for the amended C8 at the draw `r = 0`. -/
theorem formatted_delay_in_closed_interval_witness :
    1 / 10 ≤ randomDelay 0 ∧ randomDelay 0 ≤ 1 / 4 :=
  formatted_delay_in_closed_interval 0 (by norm_num) (by norm_num)

/-- Claim C9: with a positive row limit the producer's batch counts sum to
the reported `total_inserted` and that total never exceeds the limit; in
particular with limit 7 and page size 5 over ten upstream rows it posts
two batches of 5 and 2 and reports `total_inserted = 7`. -/
theorem producer_clips_to_row_limit :
    (∀ (pageSize rowLimit : Nat) (upstream : List Int), 0 < rowLimit →
      (produce pageSize rowLimit upstream).1.sum = (produce pageSize rowLimit upstream).2 ∧
      (produce pageSize rowLimit upstream).2 ≤ rowLimit) ∧
    produce 5 7 [0, 1, 2, 3, 4, 5, 6, 7, 8, 9] = ([5, 2], 7) := by
  constructor
  · intro pageSize rowLimit upstream hlim
    obtain ⟨hsum, hbound⟩ :=
      produceAux_facts pageSize rowLimit upstream.length upstream (le_refl _) 0
    exact ⟨by simpa [produce] using hsum, by simpa [produce] using hbound hlim hlim⟩
  · simp [produce, produceAux, produceBatch]

/-- Witness for C9 at the E6 configuration. -/
theorem producer_clips_to_row_limit_witness :
    (produce 5 7 [0, 1, 2, 3, 4, 5, 6, 7, 8, 9]).1.sum
      = (produce 5 7 [0, 1, 2, 3, 4, 5, 6, 7, 8, 9]).2 ∧
    (produce 5 7 [0, 1, 2, 3, 4, 5, 6, 7, 8, 9]).2 ≤ 7 :=
  producer_clips_to_row_limit.1 5 7 [0, 1, 2, 3, 4, 5, 6, 7, 8, 9] (by decide)

/-- Claim C10: `mark_failed(id)` changes only the `status` column (to
`failed`) of rows whose id matches, leaves every other column of those
rows and every other row unchanged, reports the matching-row count, and
when no row matches leaves the database entirely unchanged (the embedding
is total: no error is raised). -/
theorem mark_failed_updates_only_status :
    ∀ (s : QState) (id : Nat),
      (mark_failed id s).1 = (s.rows.filter (fun r => r.id == id)).length ∧
      ((∀ r ∈ s.rows, r.id ≠ id) → (mark_failed id s).2 = s) ∧
      (mark_failed id s).2.rows.length = s.rows.length ∧
      List.Forall₂ (fun old new =>
          (old.id ≠ id → new = old) ∧
          (old.id = id →
            new.status = Status.failed ∧
            new.id = old.id ∧
            new.source_id = old.source_id ∧
            new.payload = old.payload ∧
            new.created_at = old.created_at ∧
            new.processed_at = old.processed_at ∧
            new.result_1_body = old.result_1_body ∧
            new.result_1_status = old.result_1_status ∧
            new.result_1_duration_ms = old.result_1_duration_ms ∧
            new.result_2_body = old.result_2_body ∧
            new.result_2_status = old.result_2_status ∧
            new.result_2_duration_ms = old.result_2_duration_ms ∧
            new.result_3_body = old.result_3_body ∧
            new.result_3_status = old.result_3_status ∧
            new.result_3_duration_ms = old.result_3_duration_ms))
        s.rows (mark_failed id s).2.rows := by
  intro s id
  refine ⟨rfl, ?_, by simp [mark_failed], ?_⟩
  · intro hnone
    obtain ⟨rows, nextId⟩ := s
    simp only [mark_failed]
    congr 1
    rw [List.map_congr_left, List.map_id]
    intro r hr
    simp only [if_neg (hnone r hr)]
    rfl
  · show List.Forall₂ _ s.rows
      (s.rows.map fun r => if r.id = id then { r with status := Status.failed } else r)
    rw [List.forall₂_map_right_iff, List.forall₂_same]
    intro r _hr
    constructor
    · intro hne
      rw [if_neg hne]
    · intro heq
      rw [if_pos heq]
      simp

/-- Witness for C10: `mark_failed` on an absent id leaves a concrete
database unchanged. -/
theorem mark_failed_updates_only_status_witness :
    (mark_failed 3 { rows := [newRow 1 0 5 "p"], nextId := 2 }).2
      = { rows := [newRow 1 0 5 "p"], nextId := 2 } :=
  (mark_failed_updates_only_status { rows := [newRow 1 0 5 "p"], nextId := 2 } 3).2.1
    (by decide)
